import Mathlib

/-!
Verification development for a message search engine (a single-file
service: an ingestion loader that pulls all pages of a remote message
store into an in-memory cache, and a substring-search endpoint over
that cache).  The definitions below are a shallow embedding of the
source file `src/main.py`; every definition is annotated with the
source lines it embeds.
-/

/-- A message record.  Search reads the three string fields `message`,
`user_name` and `user_id`; a field missing from the underlying JSON
object is modelled as `none` (the code reads it with
`msg.get(field, "")`, lines 100-102). -/
structure Msg where
  message : Option String
  user_name : Option String
  user_id : Option String
  deriving DecidableEq, Repr

/-- The shared mutable state of the service: `message_cache` (line 19)
and `cache_loaded` (line 20). -/
structure LoadState where
  cache : List Msg
  loaded : Bool
  deriving DecidableEq, Repr

/-- One upstream response to a single `GET /messages/` attempt
(lines 41-46): a successful JSON body with an `items` array and an
optional `total` field, an HTTP error status (raised by
`raise_for_status`, caught at line 71), or any other exception
(network error, malformed body; caught at line 80). -/
inductive Resp where
  | ok (items : List Msg) (total : Option Nat)
  | httpErr (status : Nat)
  | exn
  deriving DecidableEq, Repr

/-- The observable outcome of one run of `load_all_messages`.
`trace` records the shared state `(message_cache, cache_loaded)` at
every `await` suspension point of the run (the fetch at line 41, the
pacing sleep at line 63, the backoff sleep at line 76, the fixed sleep
at line 84) — under the event loop of the source these are the only
points at which a concurrent reader can run.  `backoffWaits` records
the durations of the backoff sleeps computed at line 74.  `requests`
records the `skip` cursor sent with each fetch (line 43).  `final` is
the shared state after the run returns (`none` if the response script
is exhausted mid-run, which never happens for the scripts used below).
`rest` is the unconsumed remainder of the response script. -/
structure RunOut where
  trace : List LoadState
  backoffWaits : List Nat
  requests : List Nat
  final : Option LoadState
  rest : List Resp
  deriving DecidableEq, Repr

/-- The retryable status set of line 72:
`[400, 402, 403, 429, 404, 401, 405]`. -/
def isRetryable (status : Nat) : Bool :=
  decide (status ∈ ([400, 402, 403, 429, 404, 401, 405] : List Nat))

/-- The body of `load_all_messages` (lines 28-92): the outer
page loop (`while True`, line 34) and the inner retry loop
(`while retry_count < max_retries and not success`, line 38), with the
upstream modelled as a script of responses consumed one per attempt.
`sh` is the shared state at entry (recorded at each await), `acc` is
`all_messages`, `retry` is `retry_count`, `cursor` is `skip`.
The branch for `5 ≤ retry` is the exit of the inner loop with
`success = False`, which breaks the outer loop and commits the partial
accumulator with `cache_loaded = True` (lines 86-92). -/
def loadGo (sh : LoadState) (script : List Resp) (acc : List Msg)
    (retry : Nat) (cursor : Nat) : RunOut :=
  if 5 ≤ retry then
    -- lines 86-92: retry budget exhausted, abort run, commit partial
    ⟨[], [], [], some ⟨acc, true⟩, script⟩
  else
    match script with
    | [] => ⟨[], [], [], none, []⟩
    | Resp.ok items total :: rest =>
      if items.isEmpty then
        -- lines 49-53: empty page, publish and return
        ⟨[sh], [], [cursor], some ⟨acc, true⟩, rest⟩
      else
        -- lines 55-69: extend, advance cursor, pacing sleep, check total
        let acc1 := acc ++ items
        if total.getD 0 ≤ acc1.length then
          ⟨[sh, sh], [], [cursor], some ⟨acc1, true⟩, rest⟩
        else
          let o := loadGo sh rest acc1 0 (cursor + 100)
          ⟨sh :: sh :: o.trace, o.backoffWaits, cursor :: o.requests,
            o.final, o.rest⟩
    | Resp.httpErr status :: rest =>
      if isRetryable status then
        -- lines 72-76: increment retry_count, then wait 5 * 2 ^ retry_count
        let o := loadGo sh rest acc (retry + 1) cursor
        ⟨sh :: sh :: o.trace, 5 * 2 ^ (retry + 1) :: o.backoffWaits,
          cursor :: o.requests, o.final, o.rest⟩
      else
        -- lines 77-79: non-retryable status: break, then lines 86-92
        ⟨[sh], [], [cursor], some ⟨acc, true⟩, rest⟩
    | Resp.exn :: rest =>
      -- lines 80-84: other exception: increment, fixed sleep if budget left
      let o := loadGo sh rest acc (retry + 1) cursor
      if retry + 1 < 5 then
        ⟨sh :: sh :: o.trace, o.backoffWaits, cursor :: o.requests,
          o.final, o.rest⟩
      else
        ⟨sh :: o.trace, o.backoffWaits, cursor :: o.requests,
          o.final, o.rest⟩

/-- `load_all_messages` (lines 22-92).  The guard at lines 25-26
returns immediately, without any fetch, when the cache is already
loaded; otherwise the paginated run starts at `skip = 0` with an empty
accumulator and `retry_count = 0`. -/
def load_all_messages (script : List Resp) (sh : LoadState) : RunOut :=
  if sh.loaded then ⟨[], [], [], some sh, script⟩
  else loadGo sh script [] 0 0

/-- `refresh_cache` (lines 173-182): sets `cache_loaded = False`, then
runs `load_all_messages`. -/
def refresh_cache (script : List Resp) (sh : LoadState) : RunOut :=
  load_all_messages script ⟨sh.cache, false⟩

/-- Python list equality test used to model `needle in hay` on strings:
`leadsList n h` holds when `n` is an initial segment of `h`. -/
def leadsList : List Char → List Char → Bool
  | [], _ => true
  | _ :: _, [] => false
  | a :: n, b :: h => a == b && leadsList n h

/-- `occursIn n h` models Python's `n in h` on character lists: `n`
occurs contiguously somewhere in `h` (the empty list occurs in
everything, as in Python). -/
def occursIn : List Char → List Char → Bool
  | n, [] => leadsList n []
  | n, c :: cs => leadsList n (c :: cs) || occursIn n cs

/-- Python's `needle in hay` on strings. -/
def pyInStr (needle hay : String) : Bool :=
  occursIn needle.data hay.data

/-- Python's `s.lower()` (used at lines 96 and 100-102), character by
character. -/
def pyLower (s : String) : String :=
  ⟨s.data.map Char.toLower⟩

/-- Python's `s.strip()` (used at lines 161 and 164): remove leading
and trailing whitespace. -/
def pyStrip (s : String) : String :=
  ⟨((s.data.dropWhile Char.isWhitespace).reverse.dropWhile
      Char.isWhitespace).reverse⟩

/-- `msg.get(field, "")` (lines 100-102). -/
def pyGetStr (o : Option String) : String := o.getD ""

/-- The match predicate of the list comprehension at lines 98-103:
the lowercased query occurs in the lowercased `message`, `user_name`
or `user_id` field, a missing field reading as the empty string. -/
def msgMatches (ql : String) (m : Msg) : Bool :=
  pyInStr ql (pyLower (pyGetStr m.message)) ||
  pyInStr ql (pyLower (pyGetStr m.user_name)) ||
  pyInStr ql (pyLower (pyGetStr m.user_id))

/-- One bound of a Python slice `l[a:b]`: a negative index counts from
the end (clamped below at 0), a non-negative index is clamped above at
the length. -/
def pyIndex (len : Nat) (i : Int) : Nat :=
  if i < 0 then ((len : Int) + i).toNat else min i.toNat len

/-- Python's slice `l[a:b]` (line 106 uses `matched[skip:skip + limit]`). -/
def pySlice {α : Type} (l : List α) (a b : Int) : List α :=
  (l.take (pyIndex l.length b)).drop (pyIndex l.length a)

/-- The full match list of `search_messages` (the comprehension at
lines 98-103), in cache order. -/
def matchedList (cache : List Msg) (query : String) : List Msg :=
  cache.filter (fun m => msgMatches (pyLower query) m)

/-- The result dictionary of `search_messages` (lines 108-114). -/
structure SearchResult where
  total : Nat
  items : List Msg
  skip : Int
  limit : Int
  cache_size : Nat
  deriving DecidableEq, Repr

/-- `search_messages` (lines 94-114): filter the cache by the
case-insensitive substring rule, then return the Python slice
`matched[skip : skip + limit]` together with the full match count and
the cache size. -/
def search_messages (cache : List Msg) (query : String)
    (skip limit : Int) : SearchResult :=
  let matched := matchedList cache query
  ⟨matched.length, pySlice matched skip (skip + limit), skip, limit,
    cache.length⟩

/-- Outcome of a request to the `/search` endpoint.
`validationError` is the framework's rejection (HTTP 422) of a query
parameter violating the declared bounds `skip ≥ 0`, `1 ≤ limit ≤ 1000`
(lines 149-150: `Query(0, ge=0)`, `Query(100, ge=1, le=1000)`);
`cacheNotReady` is the 503 of line 159; `invalidInput` is the 400 of
line 162. -/
inductive SearchOut where
  | validationError
  | cacheNotReady
  | invalidInput
  | ok (res : SearchResult)
  deriving DecidableEq, Repr

/-- The `/search` endpoint (lines 146-171).  Parameter validation by
the declared bounds happens before the handler body runs; inside the
handler, the cache-loaded check (line 158) precedes the empty-query
check (line 161), and the query is stripped before searching
(line 164). -/
def search (sh : LoadState) (q : String) (skip limit : Int) : SearchOut :=
  if skip < 0 ∨ limit < 1 ∨ 1000 < limit then SearchOut.validationError
  else if sh.loaded = false then SearchOut.cacheNotReady
  else if pyStrip q = "" then SearchOut.invalidInput
  else SearchOut.ok (search_messages sh.cache (pyStrip q) skip limit)

/-- A non-final successful page of the loader script: `items` with a
claimed total `tot`, encoded as the upstream JSON `ok` response. -/
def goodResp (p : List Msg × Nat) : Resp :=
  Resp.ok p.1 (some p.2)

/-- `progressiveB n gs` holds when, starting from `n` records already
accumulated, every page of `gs` is non-empty and leaves the
accumulated count strictly below its own claimed total — i.e. the
loader keeps fetching after each page of `gs`. -/
def progressiveB (n : Nat) : List (List Msg × Nat) → Bool
  | [] => true
  | p :: ps =>
    !p.1.isEmpty && decide (n + p.1.length < p.2) &&
      progressiveB (n + p.1.length) ps

/-- Sample records used by concrete witnesses. -/
def msgA : Msg := ⟨some "alpha x", some "alice", some "u1"⟩

/-- A second sample record; its `user_name` field is absent. -/
def msgB : Msg := ⟨some "bravo", none, some "u2"⟩

/-- A loaded cache state holding the two sample records. -/
def demoLoaded : LoadState := ⟨[msgA, msgB], true⟩

/-! ### Unfolding lemmas for the loader -/

/-- Inner retry loop exits with `success = False` (lines 86-92). -/
lemma loadGo_exhaust (sh : LoadState) (script : List Resp) (acc : List Msg)
    (retry cursor : Nat) (h : 5 ≤ retry) :
    loadGo sh script acc retry cursor = ⟨[], [], [], some ⟨acc, true⟩, script⟩ := by
  rw [loadGo.eq_def, if_pos h]

/-- The response script is exhausted mid-run. -/
lemma loadGo_nil (sh : LoadState) (acc : List Msg) (retry cursor : Nat)
    (h : retry < 5) :
    loadGo sh [] acc retry cursor = ⟨[], [], [], none, []⟩ := by
  rw [loadGo.eq_def, if_neg (by omega)]

/-- One successful fetch (lines 39-69). -/
lemma loadGo_ok (sh : LoadState) (items : List Msg) (total : Option Nat)
    (rest : List Resp) (acc : List Msg) (retry cursor : Nat) (h : retry < 5) :
    loadGo sh (Resp.ok items total :: rest) acc retry cursor =
      if items.isEmpty then ⟨[sh], [], [cursor], some ⟨acc, true⟩, rest⟩
      else
        if total.getD 0 ≤ (acc ++ items).length then
          ⟨[sh, sh], [], [cursor], some ⟨acc ++ items, true⟩, rest⟩
        else
          ⟨sh :: sh :: (loadGo sh rest (acc ++ items) 0 (cursor + 100)).trace,
            (loadGo sh rest (acc ++ items) 0 (cursor + 100)).backoffWaits,
            cursor :: (loadGo sh rest (acc ++ items) 0 (cursor + 100)).requests,
            (loadGo sh rest (acc ++ items) 0 (cursor + 100)).final,
            (loadGo sh rest (acc ++ items) 0 (cursor + 100)).rest⟩ := by
  rw [loadGo.eq_def, if_neg (by omega)]

/-- One fetch failing with an HTTP error status (lines 71-79). -/
lemma loadGo_httpErr (sh : LoadState) (status : Nat) (rest : List Resp)
    (acc : List Msg) (retry cursor : Nat) (h : retry < 5) :
    loadGo sh (Resp.httpErr status :: rest) acc retry cursor =
      if isRetryable status then
        ⟨sh :: sh :: (loadGo sh rest acc (retry + 1) cursor).trace,
          5 * 2 ^ (retry + 1) :: (loadGo sh rest acc (retry + 1) cursor).backoffWaits,
          cursor :: (loadGo sh rest acc (retry + 1) cursor).requests,
          (loadGo sh rest acc (retry + 1) cursor).final,
          (loadGo sh rest acc (retry + 1) cursor).rest⟩
      else ⟨[sh], [], [cursor], some ⟨acc, true⟩, rest⟩ := by
  rw [loadGo.eq_def, if_neg (by omega)]

/-- One fetch failing with a non-HTTP exception (lines 80-84). -/
lemma loadGo_exn (sh : LoadState) (rest : List Resp) (acc : List Msg)
    (retry cursor : Nat) (h : retry < 5) :
    loadGo sh (Resp.exn :: rest) acc retry cursor =
      if retry + 1 < 5 then
        ⟨sh :: sh :: (loadGo sh rest acc (retry + 1) cursor).trace,
          (loadGo sh rest acc (retry + 1) cursor).backoffWaits,
          cursor :: (loadGo sh rest acc (retry + 1) cursor).requests,
          (loadGo sh rest acc (retry + 1) cursor).final,
          (loadGo sh rest acc (retry + 1) cursor).rest⟩
      else
        ⟨sh :: (loadGo sh rest acc (retry + 1) cursor).trace,
          (loadGo sh rest acc (retry + 1) cursor).backoffWaits,
          cursor :: (loadGo sh rest acc (retry + 1) cursor).requests,
          (loadGo sh rest acc (retry + 1) cursor).final,
          (loadGo sh rest acc (retry + 1) cursor).rest⟩ := by
  rw [loadGo.eq_def, if_neg (by omega)]

/-! ### Substring and slice lemmas -/

/-- `leadsList n h` decides an initial-segment decomposition of `h`. -/
lemma leadsList_iff (n : List Char) :
    ∀ h : List Char, leadsList n h = true ↔ ∃ t, h = n ++ t := by
  induction n with
  | nil => intro h; simp [leadsList]
  | cons a n ih =>
    intro h
    cases h with
    | nil => simp [leadsList]
    | cons b bs =>
      rw [leadsList]
      simp only [Bool.and_eq_true, beq_iff_eq, ih, List.cons_append,
        List.cons.injEq]
      constructor
      · rintro ⟨hab, t, ht⟩
        exact ⟨t, hab.symm, ht⟩
      · rintro ⟨t, hab, ht⟩
        exact ⟨hab.symm, t, ht⟩

/-- `occursIn n h` decides a contiguous-occurrence decomposition of `h`. -/
lemma occursIn_iff (n : List Char) :
    ∀ h : List Char, occursIn n h = true ↔ ∃ p t, h = p ++ n ++ t := by
  intro h
  induction h with
  | nil =>
    rw [occursIn, leadsList_iff]
    constructor
    · rintro ⟨t, ht⟩
      exact ⟨[], t, ht⟩
    · rintro ⟨p, t, ht⟩
      rcases List.append_eq_nil.mp (ht.symm) with ⟨hpn, ht2⟩
      rcases List.append_eq_nil.mp hpn with ⟨hp, hn⟩
      exact ⟨[], by simp [hn]⟩
  | cons c cs ih =>
    rw [occursIn]
    simp only [Bool.or_eq_true, leadsList_iff, ih]
    constructor
    · rintro (⟨t, ht⟩ | ⟨p, t, ht⟩)
      · exact ⟨[], t, by simpa using ht⟩
      · exact ⟨c :: p, t, by simp [ht]⟩
    · rintro ⟨p, t, ht⟩
      cases p with
      | nil => exact Or.inl ⟨t, by simpa using ht⟩
      | cons x xs =>
        rcases List.cons.injEq c cs x (xs ++ n ++ t) ▸ ht with ⟨hcx, hcs⟩
        exact Or.inr ⟨xs, t, by simpa using hcs⟩

/-- Membership in a Python slice implies membership in the list. -/
lemma mem_of_mem_pySlice {α : Type} {l : List α} {a b : Int} {x : α}
    (h : x ∈ pySlice l a b) : x ∈ l :=
  List.mem_of_mem_take (List.mem_of_mem_drop h)

/-- For non-negative bounds given as naturals, the Python slice
`l[s : s + L]` is drop-then-take. -/
lemma pySlice_natCast {α : Type} (l : List α) (s L : Nat) :
    pySlice l (s : Int) ((s : Int) + (L : Int)) = (l.drop s).take L := by
  unfold pySlice pyIndex
  rw [if_neg (by omega), if_neg (by omega)]
  have h1 : ((s : Int)).toNat = s := by omega
  have h2 : ((s : Int) + (L : Int)).toNat = s + L := by omega
  rw [h1, h2]
  rcases Nat.le_total l.length s with hls | hsl
  · rw [Nat.min_eq_right hls]
    rw [List.drop_eq_nil_iff.mpr (by simp), List.drop_eq_nil_iff.mpr hls,
      List.take_nil]
  · rw [Nat.min_eq_left hsl]
    have e : min (s + L) l.length = s + (min (s + L) l.length - s) := by omega
    rw [e, ← List.take_drop]
    rcases Nat.le_total (s + L) l.length with hsL | hLs
    · rw [Nat.min_eq_left hsL]
      congr 1
      omega
    · rw [Nat.min_eq_right hLs]
      have hlen : (l.drop s).length = l.length - s := by simp
      rw [List.take_of_length_le (by omega), List.take_of_length_le (by omega)]

/-! ### Run lemmas for the loader -/

/-- A run over a progressive good-page script consumes exactly those
pages, appends their items in order, and then continues with a fresh
retry budget at the advanced cursor. -/
lemma loadGo_goodPages (sh : LoadState) :
    ∀ (gs : List (List Msg × Nat)) (rest : List Resp) (acc : List Msg)
      (cursor : Nat), progressiveB acc.length gs = true →
      (loadGo sh (gs.map goodResp ++ rest) acc 0 cursor).final =
        (loadGo sh rest (acc ++ (gs.map Prod.fst).flatten) 0
          (cursor + 100 * gs.length)).final ∧
      (loadGo sh (gs.map goodResp ++ rest) acc 0 cursor).rest =
        (loadGo sh rest (acc ++ (gs.map Prod.fst).flatten) 0
          (cursor + 100 * gs.length)).rest := by
  intro gs
  induction gs with
  | nil => intro rest acc cursor _; simp
  | cons p ps ih =>
    obtain ⟨items, tot⟩ := p
    intro rest acc cursor hprog
    rw [progressiveB] at hprog
    simp only [Bool.and_eq_true, Bool.not_eq_true', decide_eq_true_eq] at hprog
    obtain ⟨⟨hne, hlt⟩, hps⟩ := hprog
    simp only [List.map_cons, List.cons_append, goodResp]
    rw [loadGo_ok sh items (some tot) (ps.map goodResp ++ rest) acc 0 cursor
      (by omega)]
    have hlt2 : ¬ ((some tot).getD 0 ≤ (acc ++ items).length) := by
      simp only [Option.getD_some, List.length_append]
      omega
    rw [if_neg (by simp [hne]), if_neg hlt2]
    have ih2 := ih rest (acc ++ items) (cursor + 100)
      (by simpa [List.length_append] using hps)
    simp only [List.append_assoc, List.map_cons, List.flatten_cons,
      List.length_cons] at ih2 ⊢
    have hc : cursor + 100 + 100 * ps.length = cursor + 100 * (ps.length + 1) := by
      omega
    rw [hc] at ih2
    exact ⟨ih2.1, ih2.2⟩

/-- A run over `n` consecutive retryable-error responses records the
backoff waits `5 * 2 ^ (retry + 1 + i)`, re-requests the same cursor
each time, and then continues with the retry counter advanced by `n`. -/
lemma loadGo_backoff (sh : LoadState) (st : Nat)
    (hst : isRetryable st = true) :
    ∀ (n retry : Nat), retry + n ≤ 5 →
      ∀ (rest : List Resp) (acc : List Msg) (cursor : Nat),
      (loadGo sh (List.replicate n (Resp.httpErr st) ++ rest) acc retry
          cursor).backoffWaits =
        (List.range n).map (fun i => 5 * 2 ^ (retry + 1 + i)) ++
          (loadGo sh rest acc (retry + n) cursor).backoffWaits ∧
      (loadGo sh (List.replicate n (Resp.httpErr st) ++ rest) acc retry
          cursor).requests =
        List.replicate n cursor ++
          (loadGo sh rest acc (retry + n) cursor).requests ∧
      (loadGo sh (List.replicate n (Resp.httpErr st) ++ rest) acc retry
          cursor).final = (loadGo sh rest acc (retry + n) cursor).final ∧
      (loadGo sh (List.replicate n (Resp.httpErr st) ++ rest) acc retry
          cursor).rest = (loadGo sh rest acc (retry + n) cursor).rest := by
  intro n
  induction n with
  | zero => intro retry _ rest acc cursor; simp
  | succ k ih =>
    intro retry hru rest acc cursor
    rw [List.replicate_succ, List.cons_append,
      loadGo_httpErr sh st (List.replicate k (Resp.httpErr st) ++ rest)
        acc retry cursor (by omega), if_pos hst]
    have ihk := ih (retry + 1) (by omega) rest acc cursor
    have hr : retry + 1 + k = retry + (k + 1) := by omega
    rw [hr] at ihk
    refine ⟨?_, ?_, ?_, ?_⟩
    · simp only [ihk.1]
      have hmap : (List.range (k + 1)).map (fun i => 5 * 2 ^ (retry + 1 + i)) =
          5 * 2 ^ (retry + 1) ::
            (List.range k).map (fun i => 5 * 2 ^ (retry + 1 + 1 + i)) := by
        rw [List.range_succ_eq_map, List.map_cons, List.map_map]
        refine congrArg₂ _ (by norm_num) ?_
        apply List.map_congr_left
        intro i _
        simp only [Function.comp_apply, Nat.succ_eq_add_one]
        have e2 : retry + 1 + (i + 1) = retry + 1 + 1 + i := by omega
        rw [e2]
      rw [hmap, List.cons_append]
    · simp only [ihk.2.1, List.replicate_succ, List.cons_append]
    · exact ihk.2.2.1
    · exact ihk.2.2.2

/-- Every state recorded at an await suspension point of a run equals
the shared state at entry of the run: the loop never mutates the shared
pair before its single publish-and-return. -/
lemma loadGo_trace_eq (sh : LoadState) :
    ∀ (script : List Resp) (acc : List Msg) (retry cursor : Nat),
      ∀ s ∈ (loadGo sh script acc retry cursor).trace, s = sh := by
  intro script
  induction script with
  | nil =>
    intro acc retry cursor s hs
    by_cases h : 5 ≤ retry
    · rw [loadGo_exhaust sh [] acc retry cursor h] at hs
      simp at hs
    · rw [loadGo_nil sh acc retry cursor (by omega)] at hs
      simp at hs
  | cons r rest ih =>
    intro acc retry cursor s hs
    by_cases h : 5 ≤ retry
    · rw [loadGo_exhaust sh (r :: rest) acc retry cursor h] at hs
      simp at hs
    · cases r with
      | ok items total =>
        rw [loadGo_ok sh items total rest acc retry cursor (by omega)] at hs
        by_cases he : items.isEmpty
        · rw [if_pos he] at hs
          simpa using hs
        · rw [if_neg he] at hs
          by_cases ht : total.getD 0 ≤ (acc ++ items).length
          · rw [if_pos ht] at hs
            simpa using hs
          · rw [if_neg ht] at hs
            simp only [RunOut.trace, List.mem_cons] at hs
            rcases hs with hs | hs | hs
            · exact hs
            · exact hs
            · exact ih (acc ++ items) 0 (cursor + 100) s hs
      | httpErr status =>
        rw [loadGo_httpErr sh status rest acc retry cursor (by omega)] at hs
        by_cases hr : isRetryable status
        · rw [if_pos hr] at hs
          simp only [RunOut.trace, List.mem_cons] at hs
          rcases hs with hs | hs | hs
          · exact hs
          · exact hs
          · exact ih acc (retry + 1) cursor s hs
        · rw [if_neg hr] at hs
          simpa using hs
      | exn =>
        rw [loadGo_exn sh rest acc retry cursor (by omega)] at hs
        by_cases hb : retry + 1 < 5
        · rw [if_pos hb] at hs
          simp only [RunOut.trace, List.mem_cons] at hs
          rcases hs with hs | hs | hs
          · exact hs
          · exact hs
          · exact ih acc (retry + 1) cursor s hs
        · rw [if_neg hb] at hs
          simp only [RunOut.trace, List.mem_cons] at hs
          rcases hs with hs | hs
          · exact hs
          · exact ih acc (retry + 1) cursor s hs

/-- Whenever a run returns (rather than exhausting its script), the
published shared state has `loaded = true`. -/
lemma loadGo_final_loaded (sh : LoadState) :
    ∀ (script : List Resp) (acc : List Msg) (retry cursor : Nat)
      (f : LoadState), (loadGo sh script acc retry cursor).final = some f →
      f.loaded = true := by
  intro script
  induction script with
  | nil =>
    intro acc retry cursor f hf
    by_cases h : 5 ≤ retry
    · rw [loadGo_exhaust sh [] acc retry cursor h] at hf
      simp only [RunOut.final, Option.some.injEq] at hf
      rw [← hf]
    · rw [loadGo_nil sh acc retry cursor (by omega)] at hf
      simp at hf
  | cons r rest ih =>
    intro acc retry cursor f hf
    by_cases h : 5 ≤ retry
    · rw [loadGo_exhaust sh (r :: rest) acc retry cursor h] at hf
      simp only [RunOut.final, Option.some.injEq] at hf
      rw [← hf]
    · cases r with
      | ok items total =>
        rw [loadGo_ok sh items total rest acc retry cursor (by omega)] at hf
        by_cases he : items.isEmpty
        · rw [if_pos he] at hf
          simp only [RunOut.final, Option.some.injEq] at hf
          rw [← hf]
        · rw [if_neg he] at hf
          by_cases ht : total.getD 0 ≤ (acc ++ items).length
          · rw [if_pos ht] at hf
            simp only [RunOut.final, Option.some.injEq] at hf
            rw [← hf]
          · rw [if_neg ht] at hf
            exact ih (acc ++ items) 0 (cursor + 100) f hf
      | httpErr status =>
        rw [loadGo_httpErr sh status rest acc retry cursor (by omega)] at hf
        by_cases hr : isRetryable status
        · rw [if_pos hr] at hf
          exact ih acc (retry + 1) cursor f hf
        · rw [if_neg hr] at hf
          simp only [RunOut.final, Option.some.injEq] at hf
          rw [← hf]
      | exn =>
        rw [loadGo_exn sh rest acc retry cursor (by omega)] at hf
        by_cases hb : retry + 1 < 5
        · rw [if_pos hb] at hf
          exact ih acc (retry + 1) cursor f hf
        · rw [if_neg hb] at hf
          exact ih acc (retry + 1) cursor f hf

/-- The shared state at entry is only echoed into the trace: the
published state, the waits, the requests and the remaining script of a
run do not depend on it. -/
lemma loadGo_core_eq (sh1 sh2 : LoadState) :
    ∀ (script : List Resp) (acc : List Msg) (retry cursor : Nat),
      (loadGo sh1 script acc retry cursor).backoffWaits =
        (loadGo sh2 script acc retry cursor).backoffWaits ∧
      (loadGo sh1 script acc retry cursor).requests =
        (loadGo sh2 script acc retry cursor).requests ∧
      (loadGo sh1 script acc retry cursor).final =
        (loadGo sh2 script acc retry cursor).final ∧
      (loadGo sh1 script acc retry cursor).rest =
        (loadGo sh2 script acc retry cursor).rest := by
  intro script
  induction script with
  | nil =>
    intro acc retry cursor
    by_cases h : 5 ≤ retry
    · rw [loadGo_exhaust sh1 [] acc retry cursor h,
        loadGo_exhaust sh2 [] acc retry cursor h]
      exact ⟨rfl, rfl, rfl, rfl⟩
    · rw [loadGo_nil sh1 acc retry cursor (by omega),
        loadGo_nil sh2 acc retry cursor (by omega)]
      exact ⟨rfl, rfl, rfl, rfl⟩
  | cons r rest ih =>
    intro acc retry cursor
    by_cases h : 5 ≤ retry
    · rw [loadGo_exhaust sh1 (r :: rest) acc retry cursor h,
        loadGo_exhaust sh2 (r :: rest) acc retry cursor h]
      exact ⟨rfl, rfl, rfl, rfl⟩
    · cases r with
      | ok items total =>
        rw [loadGo_ok sh1 items total rest acc retry cursor (by omega),
          loadGo_ok sh2 items total rest acc retry cursor (by omega)]
        by_cases he : items.isEmpty
        · rw [if_pos he, if_pos he]
          exact ⟨rfl, rfl, rfl, rfl⟩
        · rw [if_neg he, if_neg he]
          by_cases ht : total.getD 0 ≤ (acc ++ items).length
          · rw [if_pos ht, if_pos ht]
            exact ⟨rfl, rfl, rfl, rfl⟩
          · rw [if_neg ht, if_neg ht]
            have ihx := ih (acc ++ items) 0 (cursor + 100)
            exact ⟨ihx.1, by simp only [RunOut.requests]; rw [ihx.2.1],
              ihx.2.2.1, ihx.2.2.2⟩
      | httpErr status =>
        rw [loadGo_httpErr sh1 status rest acc retry cursor (by omega),
          loadGo_httpErr sh2 status rest acc retry cursor (by omega)]
        by_cases hr : isRetryable status
        · rw [if_pos hr, if_pos hr]
          have ihx := ih acc (retry + 1) cursor
          exact ⟨by simp only [RunOut.backoffWaits]; rw [ihx.1],
            by simp only [RunOut.requests]; rw [ihx.2.1],
            ihx.2.2.1, ihx.2.2.2⟩
        · rw [if_neg hr, if_neg hr]
          exact ⟨rfl, rfl, rfl, rfl⟩
      | exn =>
        rw [loadGo_exn sh1 rest acc retry cursor (by omega),
          loadGo_exn sh2 rest acc retry cursor (by omega)]
        have ihx := ih acc (retry + 1) cursor
        by_cases hb : retry + 1 < 5
        · rw [if_pos hb, if_pos hb]
          exact ⟨ihx.1, by simp only [RunOut.requests]; rw [ihx.2.1],
            ihx.2.2.1, ihx.2.2.2⟩
        · rw [if_neg hb, if_neg hb]
          exact ⟨ihx.1, by simp only [RunOut.requests]; rw [ihx.2.1],
            ihx.2.2.1, ihx.2.2.2⟩

/-- With the cache not yet loaded, `load_all_messages` enters its
paginated run (guard at lines 25-26 does not fire). -/
lemma load_all_messages_unloaded (script : List Resp) (c : List Msg) :
    load_all_messages script ⟨c, false⟩ = loadGo ⟨c, false⟩ script [] 0 0 := rfl

/-- With the cache already loaded, `load_all_messages` is the no-op of
lines 25-26. -/
lemma load_all_messages_loaded (script : List Resp) (c : List Msg) :
    load_all_messages script ⟨c, true⟩ =
      ⟨[], [], [], some ⟨c, true⟩, script⟩ := rfl

/-! ### Claims -/

/-- Claim C3: for the upstream page source answering, in order,
`(items := [A, B], total := 3)`, `(items := [C], total := 3)` and
`(items := [], total := 3)`, `load_all_messages` terminates
successfully with the cache snapshot `[A, B, C]` and `loaded = true`
(the accumulated count 3 reaches the reported total 3 after the second
page, so the run publishes without needing the empty third page). -/
theorem load_all_three_pages (A B C : Msg) :
    (load_all_messages [Resp.ok [A, B] (some 3), Resp.ok [C] (some 3),
        Resp.ok [] (some 3)] ⟨[], false⟩).final = some ⟨[A, B, C], true⟩ :=
  rfl

/-- Claim C4: whenever a progressive prefix of good pages is followed
by five consecutive responses with a retryable status (429), the run
exhausts the retry budget on that page, aborts without consuming any
later response, and commits exactly the previously accumulated records
with `loaded = true`. -/
theorem load_aborts_after_exhausted_retries (gs : List (List Msg × Nat))
    (rest : List Resp) (h : progressiveB 0 gs = true) :
    (load_all_messages
        (gs.map goodResp ++ (List.replicate 5 (Resp.httpErr 429) ++ rest))
        ⟨[], false⟩).final = some ⟨(gs.map Prod.fst).flatten, true⟩ ∧
    (load_all_messages
        (gs.map goodResp ++ (List.replicate 5 (Resp.httpErr 429) ++ rest))
        ⟨[], false⟩).rest = rest := by
  rw [load_all_messages_unloaded]
  have hgp := loadGo_goodPages ⟨[], false⟩ gs
    (List.replicate 5 (Resp.httpErr 429) ++ rest) [] 0 (by simpa using h)
  have hbk := loadGo_backoff ⟨[], false⟩ 429 (by decide) 5 0 (by omega) rest
    ([] ++ (gs.map Prod.fst).flatten) (0 + 100 * gs.length)
  have hex := loadGo_exhaust ⟨[], false⟩ rest ([] ++ (gs.map Prod.fst).flatten)
    (0 + 5) (0 + 100 * gs.length) (by omega)
  constructor
  · rw [hgp.1, hbk.2.2.1, hex]
    simp
  · rw [hgp.2, hbk.2.2.2, hex]

/-- Witness for C4 at a concrete input: one good page `[msgA]` with
claimed total 5, then five 429 responses, then one further response
that must not be consumed. -/
theorem load_aborts_after_exhausted_retries_witness :
    progressiveB 0 [([msgA], 5)] = true ∧
    ((load_all_messages
        ([([msgA], 5)].map goodResp ++
          (List.replicate 5 (Resp.httpErr 429) ++ [Resp.exn]))
        ⟨[], false⟩).final =
      some ⟨([([msgA], 5)].map Prod.fst).flatten, true⟩ ∧
    (load_all_messages
        ([([msgA], 5)].map goodResp ++
          (List.replicate 5 (Resp.httpErr 429) ++ [Resp.exn]))
        ⟨[], false⟩).rest = [Resp.exn]) :=
  ⟨by decide, load_aborts_after_exhausted_retries [([msgA], 5)] [Resp.exn]
    (by decide)⟩

/-- Claim C5, counterexample: the claim says the wait before the first
retry of a page is `5 * 2 ^ 0 = 5` time units; on the code the
increment of `retry_count` happens before the wait is computed
(lines 73-74), so the first recorded backoff wait is 10, not 5. -/
theorem backoff_first_wait_counterexample :
    (load_all_messages [Resp.httpErr 429, Resp.ok [] none]
        ⟨[], false⟩).backoffWaits = [10] ∧
    (load_all_messages [Resp.httpErr 429, Resp.ok [] none]
        ⟨[], false⟩).backoffWaits ≠ [5] := by
  exact ⟨rfl, by decide⟩

/-- Claim C5 as amended: on each retryable failure the loader first
increments `retry_count` and then waits `5 * 2 ^ retry_count` with the
incremented value, retrying the same cursor; so a page that fails `n`
times waits `5 * 2 ^ 1, …, 5 * 2 ^ n` (10, 20, 40, …), and every
attempt of the page requests the same cursor. -/
theorem backoff_waits_post_increment (st n : Nat)
    (hst : isRetryable st = true) (hn : n ≤ 4) :
    (load_all_messages (List.replicate n (Resp.httpErr st) ++
        [Resp.ok [] none]) ⟨[], false⟩).backoffWaits =
      (List.range n).map (fun i => 5 * 2 ^ (i + 1)) ∧
    (load_all_messages (List.replicate n (Resp.httpErr st) ++
        [Resp.ok [] none]) ⟨[], false⟩).requests =
      List.replicate (n + 1) 0 ∧
    (load_all_messages (List.replicate n (Resp.httpErr st) ++
        [Resp.ok [] none]) ⟨[], false⟩).final = some ⟨[], true⟩ := by
  rw [load_all_messages_unloaded]
  have hbk := loadGo_backoff ⟨[], false⟩ st hst n 0 (by omega)
    [Resp.ok [] none] [] 0
  have hok : loadGo ⟨[], false⟩ [Resp.ok [] none] [] (0 + n) 0 =
      ⟨[⟨[], false⟩], [], [0], some ⟨[], true⟩, []⟩ := by
    rw [loadGo_ok ⟨[], false⟩ [] none [] [] (0 + n) 0 (by omega),
      if_pos (by decide)]
  refine ⟨?_, ?_, ?_⟩
  · rw [hbk.1, hok]
    simp only [RunOut.backoffWaits, List.append_nil]
    apply List.map_congr_left
    intro i _
    have e : 0 + 1 + i = i + 1 := by omega
    rw [e]
  · rw [hbk.2.1, hok]
    simp only [RunOut.requests]
    rw [List.replicate_succ']
  · rw [hbk.2.2.1, hok]

/-- Witness for the amended C5 at `st = 429`, `n = 2`: waits 10 and
20, three requests all at cursor 0, successful publish of the empty
snapshot. -/
theorem backoff_waits_post_increment_witness :
    (isRetryable 429 = true ∧ 2 ≤ 4) ∧
    ((load_all_messages (List.replicate 2 (Resp.httpErr 429) ++
        [Resp.ok [] none]) ⟨[], false⟩).backoffWaits =
      (List.range 2).map (fun i => 5 * 2 ^ (i + 1)) ∧
    (load_all_messages (List.replicate 2 (Resp.httpErr 429) ++
        [Resp.ok [] none]) ⟨[], false⟩).requests =
      List.replicate (2 + 1) 0 ∧
    (load_all_messages (List.replicate 2 (Resp.httpErr 429) ++
        [Resp.ok [] none]) ⟨[], false⟩).final = some ⟨[], true⟩) :=
  ⟨⟨by decide, by decide⟩, backoff_waits_post_increment 429 2 (by decide)
    (by decide)⟩

/-- Claim C10: a fetched page with a non-empty items array but no
`total` field makes the code read the claimed total as 0
(`data.get("total", 0)`, line 56), so the termination test at line 65
holds at once and the run publishes everything fetched so far,
including that page, with `loaded = true`, consuming nothing further. -/
theorem missing_total_terminates (gs : List (List Msg × Nat))
    (items : List Msg) (rest : List Resp)
    (h : progressiveB 0 gs = true) (hne : ¬ items.isEmpty = true) :
    (load_all_messages (gs.map goodResp ++ (Resp.ok items none :: rest))
        ⟨[], false⟩).final =
      some ⟨(gs.map Prod.fst).flatten ++ items, true⟩ ∧
    (load_all_messages (gs.map goodResp ++ (Resp.ok items none :: rest))
        ⟨[], false⟩).rest = rest := by
  rw [load_all_messages_unloaded]
  have hgp := loadGo_goodPages ⟨[], false⟩ gs (Resp.ok items none :: rest)
    [] 0 (by simpa using h)
  have hstep : loadGo ⟨[], false⟩ (Resp.ok items none :: rest)
      ([] ++ (gs.map Prod.fst).flatten) 0 (0 + 100 * gs.length) =
      ⟨[⟨[], false⟩, ⟨[], false⟩], [], [0 + 100 * gs.length],
        some ⟨([] ++ (gs.map Prod.fst).flatten) ++ items, true⟩, rest⟩ := by
    rw [loadGo_ok ⟨[], false⟩ items none rest ([] ++ (gs.map Prod.fst).flatten)
      0 (0 + 100 * gs.length) (by omega), if_neg hne, if_pos (by simp)]
  constructor
  · rw [hgp.1, hstep]
    simp
  · rw [hgp.2, hstep]

/-- Witness for C10: one good page `[msgA]` (claimed total 5), then a
non-empty page `[msgB]` with the `total` field absent, then an
unconsumed response. -/
theorem missing_total_terminates_witness :
    (progressiveB 0 [([msgA], 5)] = true ∧ ¬ [msgB].isEmpty = true) ∧
    ((load_all_messages ([([msgA], 5)].map goodResp ++
        (Resp.ok [msgB] none :: [Resp.exn])) ⟨[], false⟩).final =
      some ⟨([([msgA], 5)].map Prod.fst).flatten ++ [msgB], true⟩ ∧
    (load_all_messages ([([msgA], 5)].map goodResp ++
        (Resp.ok [msgB] none :: [Resp.exn])) ⟨[], false⟩).rest =
      [Resp.exn]) :=
  ⟨⟨by decide, by decide⟩, missing_total_terminates [([msgA], 5)] [msgB]
    [Resp.exn] (by decide) (by decide)⟩

/-- Claim C7: calling `load_all_messages` on a loaded cache returns
immediately — no request is sent, no wait happens, the script is left
untouched and the state is unchanged (lines 25-26); `refresh_cache`
clears the loaded flag and then runs `load_all_messages` (lines
176-178), and the state it publishes is independent of the prior
snapshot — the new fetch replaces, rather than merges with, the old
contents. -/
theorem load_noop_and_refresh_replaces (script : List Resp)
    (c c1 c2 : List Msg) (b1 b2 : Bool) :
    load_all_messages script ⟨c, true⟩ =
      ⟨[], [], [], some ⟨c, true⟩, script⟩ ∧
    refresh_cache script ⟨c, b1⟩ = load_all_messages script ⟨c, false⟩ ∧
    (refresh_cache script ⟨c1, b1⟩).final =
      (refresh_cache script ⟨c2, b2⟩).final := by
  refine ⟨rfl, rfl, ?_⟩
  show (loadGo ⟨c1, false⟩ script [] 0 0).final =
    (loadGo ⟨c2, false⟩ script [] 0 0).final
  exact (loadGo_core_eq ⟨c1, false⟩ ⟨c2, false⟩ script [] 0 0).2.2.1

/-- Claim C9: under the cooperative scheduling of the source's event
loop, a reader can observe the shared pair only at an await suspension
point or after the run returns.  Every state in the await trace of a
run started unloaded is exactly the entry state (`loaded = false`), so
no reader ever observes `loaded = true` paired with anything but the
state published by the single atomic block that sets both fields and
returns; and every published final state has `loaded = true`. -/
theorem atomic_publish (script : List Resp) (c0 : List Msg) :
    (∀ s ∈ (load_all_messages script ⟨c0, false⟩).trace, s = ⟨c0, false⟩) ∧
    (∀ f, (load_all_messages script ⟨c0, false⟩).final = some f →
      f.loaded = true) := by
  constructor
  · intro s hs
    exact loadGo_trace_eq ⟨c0, false⟩ script [] 0 0 s hs
  · intro f hf
    exact loadGo_final_loaded ⟨c0, false⟩ script [] 0 0 f hf

/-- Witness for C9 at a one-page script: the single trace entry is the
unloaded entry state, and the published state is loaded. -/
theorem atomic_publish_witness :
    (⟨[], false⟩ : LoadState) = ⟨[], false⟩ ∧
    LoadState.loaded ⟨[], true⟩ = true :=
  ⟨(atomic_publish [Resp.ok [] none] []).1 ⟨[], false⟩ (by decide),
    (atomic_publish [Resp.ok [] none] []).2 ⟨[], true⟩ (by decide)⟩

/-- Claim C1: whenever `search` returns a page, the query was non-empty
after stripping, and every record of the page matches the
case-insensitive substring rule on at least one of the three searched
fields: the lowercased stripped query occurs contiguously in the
lowercased `message`, `user_name` or `user_id` value, a missing field
reading as the empty string (in which it can never occur, the query
being non-empty). -/
theorem search_page_records_match (sh : LoadState) (q : String)
    (s l : Int) (res : SearchResult)
    (h : search sh q s l = SearchOut.ok res) :
    pyStrip q ≠ "" ∧
    ∀ m ∈ res.items,
      (∃ p t, (pyLower (pyGetStr m.message)).data =
        p ++ (pyLower (pyStrip q)).data ++ t) ∨
      (∃ p t, (pyLower (pyGetStr m.user_name)).data =
        p ++ (pyLower (pyStrip q)).data ++ t) ∨
      (∃ p t, (pyLower (pyGetStr m.user_id)).data =
        p ++ (pyLower (pyStrip q)).data ++ t) := by
  unfold search at h
  by_cases h1 : s < 0 ∨ l < 1 ∨ 1000 < l
  · rw [if_pos h1] at h
    cases h
  · rw [if_neg h1] at h
    by_cases h2 : sh.loaded = false
    · rw [if_pos h2] at h
      cases h
    · rw [if_neg h2] at h
      by_cases h3 : pyStrip q = ""
      · rw [if_pos h3] at h
        cases h
      · rw [if_neg h3] at h
        refine ⟨h3, ?_⟩
        have hres : res = search_messages sh.cache (pyStrip q) s l := by
          cases h
          rfl
        subst hres
        intro m hm
        have hm1 : m ∈ pySlice (matchedList sh.cache (pyStrip q)) s (s + l) :=
          hm
        have hm2 : m ∈ matchedList sh.cache (pyStrip q) :=
          mem_of_mem_pySlice hm1
        rw [matchedList, List.mem_filter] at hm2
        have hmatch := hm2.2
        rw [msgMatches] at hmatch
        simp only [Bool.or_eq_true] at hmatch
        rcases hmatch with (hmt | hmt) | hmt
        · rw [pyInStr, occursIn_iff] at hmt
          obtain ⟨p, t, ht⟩ := hmt
          exact Or.inl ⟨p, t, ht⟩
        · rw [pyInStr, occursIn_iff] at hmt
          obtain ⟨p, t, ht⟩ := hmt
          exact Or.inr (Or.inl ⟨p, t, ht⟩)
        · rw [pyInStr, occursIn_iff] at hmt
          obtain ⟨p, t, ht⟩ := hmt
          exact Or.inr (Or.inr ⟨p, t, ht⟩)

/-- Witness for C1: a successful concrete search whose single returned
record matches on the `message` field. -/
theorem search_page_records_match_witness :
    pyStrip "X" ≠ "" ∧
    ∀ m ∈ (search_messages demoLoaded.cache (pyStrip "X") 0 100).items,
      (∃ p t, (pyLower (pyGetStr m.message)).data =
        p ++ (pyLower (pyStrip "X")).data ++ t) ∨
      (∃ p t, (pyLower (pyGetStr m.user_name)).data =
        p ++ (pyLower (pyStrip "X")).data ++ t) ∨
      (∃ p t, (pyLower (pyGetStr m.user_id)).data =
        p ++ (pyLower (pyStrip "X")).data ++ t) :=
  search_page_records_match demoLoaded "X" 0 100
    (search_messages demoLoaded.cache (pyStrip "X") 0 100) (by decide)

/-- Claim C2: the match list preserves snapshot insertion order (it is
a sublist of the cache); for natural `skip` and `limit` the returned
page is exactly the slice `[skip, skip + limit)` of the full match
list; the reported total is the length of the full match list, not of
the page; and concatenating the pages at `skip = 0, L, 2L, …` (enough
of them to cover the match list) reconstructs exactly the unpaginated
match list. -/
theorem search_pagination_law (c : List Msg) (q : String) (L s n : Nat)
    (_hL : 1 ≤ L) (hn : (matchedList c q).length ≤ n * L) :
    List.Sublist (matchedList c q) c ∧
    (search_messages c q (s : Int) (L : Int)).items =
      ((matchedList c q).drop s).take L ∧
    (search_messages c q (s : Int) (L : Int)).total =
      (matchedList c q).length ∧
    ((List.range n).map (fun i =>
        (search_messages c q ((i * L : Nat) : Int) (L : Int)).items)).flatten =
      matchedList c q := by
  refine ⟨List.filter_sublist c, ?_, rfl, ?_⟩
  · show pySlice (matchedList c q) (s : Int) ((s : Int) + (L : Int)) = _
    exact pySlice_natCast (matchedList c q) s L
  · have hitems : ∀ i ∈ List.range n,
        (search_messages c q ((i * L : Nat) : Int) (L : Int)).items =
          ((matchedList c q).drop (i * L)).take L := by
      intro i _
      show pySlice (matchedList c q) ((i * L : Nat) : Int)
        (((i * L : Nat) : Int) + (L : Int)) = _
      exact pySlice_natCast (matchedList c q) (i * L) L
    rw [List.map_congr_left hitems]
    have hjoin : ∀ k : Nat, ((List.range k).map (fun i =>
        ((matchedList c q).drop (i * L)).take L)).flatten =
        (matchedList c q).take (k * L) := by
      intro k
      induction k with
      | zero => simp
      | succ j ihj =>
        rw [List.range_succ, List.map_append, List.flatten_append, ihj]
        simp only [List.map_cons, List.map_nil, List.flatten_cons,
          List.flatten_nil, List.append_nil]
        rw [← List.take_add]
        congr 1
        ring
    rw [hjoin n, List.take_of_length_le hn]

/-- Witness for C2: two matching records, page size 1, two pages. -/
theorem search_pagination_law_witness :
    (1 ≤ 1 ∧ (matchedList demoLoaded.cache "u").length ≤ 2 * 1) ∧
    (List.Sublist (matchedList demoLoaded.cache "u") demoLoaded.cache ∧
    (search_messages demoLoaded.cache "u" ((0 : Nat) : Int)
        ((1 : Nat) : Int)).items =
      ((matchedList demoLoaded.cache "u").drop 0).take 1 ∧
    (search_messages demoLoaded.cache "u" ((0 : Nat) : Int)
        ((1 : Nat) : Int)).total =
      (matchedList demoLoaded.cache "u").length ∧
    ((List.range 2).map (fun i =>
        (search_messages demoLoaded.cache "u" ((i * 1 : Nat) : Int)
          ((1 : Nat) : Int)).items)).flatten =
      matchedList demoLoaded.cache "u") :=
  ⟨⟨by decide, by decide⟩,
    search_pagination_law demoLoaded.cache "u" 1 0 2 (by decide) (by decide)⟩

/-- Claim C6, counterexample: the claim says an empty-after-stripping
query fails with Invalid Input (400) in every cache state, including
unloaded; but the handler checks `cache_loaded` (line 158) before it
checks the query (line 161), so an empty query against an unloaded
cache yields Cache Not Ready (503), not Invalid Input. -/
theorem empty_query_check_order_counterexample :
    search ⟨[], false⟩ "" 0 100 = SearchOut.cacheNotReady ∧
    search ⟨[], false⟩ "" 0 100 ≠ SearchOut.invalidInput := by
  exact ⟨rfl, by decide⟩

/-- Claim C6 as amended: with in-range parameters, a query that is
empty after stripping fails with Invalid Input when the cache is
loaded; against an unloaded cache every query — empty or not — fails
with Cache Not Ready, because the cache check precedes the query
check. -/
theorem empty_query_and_unloaded_cache (sh : LoadState) (q : String)
    (s l : Int) (hs : 0 ≤ s) (hl1 : 1 ≤ l) (hl2 : l ≤ 1000) :
    (sh.loaded = true → pyStrip q = "" →
      search sh q s l = SearchOut.invalidInput) ∧
    (sh.loaded = false → search sh q s l = SearchOut.cacheNotReady) := by
  unfold search
  rw [if_neg (by omega)]
  constructor
  · intro hld hq
    rw [if_neg (by simp [hld]), if_pos hq]
  · intro hld
    rw [if_pos hld]

/-- Witness for the amended C6: an unloaded cache rejects the empty
query with Cache Not Ready, and a loaded cache rejects a
whitespace-only query with Invalid Input. -/
theorem empty_query_and_unloaded_cache_witness :
    search ⟨[], false⟩ "" 0 100 = SearchOut.cacheNotReady ∧
    search demoLoaded " " 0 100 = SearchOut.invalidInput :=
  ⟨(empty_query_and_unloaded_cache ⟨[], false⟩ "" 0 100 (by decide)
      (by decide) (by decide)).2 rfl,
    (empty_query_and_unloaded_cache demoLoaded " " 0 100 (by decide)
      (by decide) (by decide)).1 rfl (by decide)⟩

/-- Claim C8, counterexample: the claim says out-of-range `skip` or
`limit` values are clamped to the nearest in-range value; but the
endpoint declares them with `Query(..., ge=0)` and
`Query(..., ge=1, le=1000)` (lines 149-150), which the framework
enforces by rejecting the request with a validation error, not by
clamping — so the result at `skip = -1` differs from the result at the
nearest in-range value `skip = 0`. -/
theorem clamping_counterexample :
    search demoLoaded "x" (-1) 100 = SearchOut.validationError ∧
    search demoLoaded "x" 0 100 ≠ SearchOut.validationError ∧
    search demoLoaded "x" (-1) 100 ≠ search demoLoaded "x" 0 100 := by
  exact ⟨rfl, by decide, by decide⟩

/-- Claim C8 as amended: a request with `skip < 0`, `limit < 1` or
`limit > 1000` is rejected with a validation error rather than
clamped; with in-range parameters (and a loaded cache and non-empty
stripped query) the given `skip` and `limit` are used unchanged by
`search_messages`. -/
theorem out_of_range_params_rejected (sh : LoadState) (q : String)
    (s l : Int) :
    ((s < 0 ∨ l < 1 ∨ 1000 < l) →
      search sh q s l = SearchOut.validationError) ∧
    (0 ≤ s → 1 ≤ l → l ≤ 1000 → sh.loaded = true → ¬ pyStrip q = "" →
      search sh q s l =
        SearchOut.ok (search_messages sh.cache (pyStrip q) s l)) := by
  constructor
  · intro hbad
    unfold search
    rw [if_pos hbad]
  · intro hs hl1 hl2 hld hq
    unfold search
    rw [if_neg (by omega), if_neg (by simp [hld]), if_neg hq]

/-- Witness for the amended C8: an out-of-range `skip` is rejected, and
in-range parameters are passed through unchanged to `search_messages`. -/
theorem out_of_range_params_rejected_witness :
    search demoLoaded "x" (-1) 100 = SearchOut.validationError ∧
    search demoLoaded "x" 0 100 =
      SearchOut.ok (search_messages demoLoaded.cache (pyStrip "x") 0 100) :=
  ⟨(out_of_range_params_rejected demoLoaded "x" (-1) 100).1 (by decide),
    (out_of_range_params_rejected demoLoaded "x" 0 100).2 (by decide)
      (by decide) (by decide) rfl (by decide)⟩
